import Mathlib

/-
Shallow embedding of `gear_range_calc/drivetrain.py`.

Modelling conventions:
- A pandas `DataFrame` is modelled as an ordered association list of
  (column name, column of exact rationals); `df[name] = col` overwrites an
  existing column in place or appends a new one at the end, exactly as the
  column assignment used by the source does.
- Python numbers are embedded as exact rationals; the literal `math.pi`
  is the exact rational value of the IEEE-754 double that Python uses,
  and the float literals `3.6` and `0.06` are embedded as the exact
  rationals `18 / 5` and `3 / 50`.
- The `functools.cached_property` pair `ratio`/`unfolding` caches one
  DataFrame object that both properties alias (the source mutates the
  cached object in place); this is modelled by a single optional frame
  cell in `DState` plus a flag recording whether `unfolding` has been
  materialized.
- Python failures (`assert`, `TypeError`) are modelled with
  `Except String`; constructors that cannot fail are total functions.
-/

namespace Gearing

/-- A DataFrame column of exact rational values. -/
abbrev Col := List ℚ

/-- A DataFrame: ordered association list of column name and column. -/
abbrev Frame := List (String × Col)

namespace Frame

/-- Column lookup, `df[name]`: first column with the given name. -/
def getCol (f : Frame) (name : String) : Option Col :=
  (f.find? (fun p => p.1 == name)).map (fun p => p.2)

/-- Column lookup with default empty column. -/
def getColD (f : Frame) (name : String) : Col :=
  (getCol f name).getD []

/-- Column assignment, `df[name] = col`: overwrite in place when the column
exists, append at the end otherwise. -/
def setCol (f : Frame) (name : String) (c : Col) : Frame :=
  if f.any (fun p => p.1 == name) then
    f.map (fun p => if p.1 == name then (name, c) else p)
  else
    f ++ [(name, c)]

/-- Number of rows: length of the first column (pandas index length). -/
def nRows (f : Frame) : ℕ :=
  match f with
  | [] => 0
  | p :: _ => p.2.length

end Frame

/-- Exact rational value of the IEEE-754 double `math.pi` used by Python. -/
def mathPi : ℚ := 884279719003555 / 281474976710656

/-- Python `sorted`: a stable ascending sort. -/
def pySorted {α : Type} [LinearOrder α] (l : List α) : List α :=
  List.insertionSort (fun a b => a ≤ b) l

/-- `Casette` dataclass: cogs plus the count set by `__post_init__`
(`self.n_by = len(self.cogs)`; the declared field `n_speed` is never
assigned by the source and is omitted). No validation is performed. -/
structure Casette where
  cogs : List ℤ
  n_by : ℕ
  deriving DecidableEq

/-- `Casette(cogs)`: dataclass `__init__` followed by `__post_init__`. -/
def Casette.make (cogs : List ℤ) : Casette :=
  { cogs := cogs, n_by := cogs.length }

/-- `Chainring` dataclass: cogs plus `n_by = len(cogs)`. No validation. -/
structure Chainring where
  cogs : List ℤ
  n_by : ℕ
  deriving DecidableEq

/-- `Chainring(cogs)`: dataclass `__init__` followed by `__post_init__`. -/
def Chainring.make (cogs : List ℤ) : Chainring :=
  { cogs := cogs, n_by := cogs.length }

/-- The pairs visited by the nested loop of `Chainring.__mul__`:
outer loop over the chainring cogs, inner loop over the cassette cogs. -/
def crossPairs (a b : List ℤ) : List (ℤ × ℤ) :=
  a.flatMap (fun x => b.map (fun y => (x, y)))

/-- `Chainring.__mul__(self, other)`: builds the three parallel column
lists `chain_cog`, `casette_cog`, `ratio` by appending one entry per
(chain cog, cassette cog) pair, with `ratio = chain_cog / casette_cog`.
The `isinstance(other, Casette)` assertion always holds in this typed
embedding. -/
def Chainring.mul (c : Chainring) (o : Casette) : Frame :=
  [("chain_cog", (crossPairs c.cogs o.cogs).map (fun q => (q.1 : ℚ))),
   ("casette_cog", (crossPairs c.cogs o.cogs).map (fun q => (q.2 : ℚ))),
   ("ratio", (crossPairs c.cogs o.cogs).map (fun q => (q.1 : ℚ) / (q.2 : ℚ)))]

/-- `Wheel` dataclass after `__post_init__`: `diameter` is the effective
diameter (nominal plus twice the tyre offset) and `perimeter` is the
effective diameter times `math.pi`. -/
structure Wheel where
  diameter : ℚ
  perimeter : ℚ
  deriving DecidableEq

/-- `Wheel(diameter, tyre_offset)`: `__post_init__` overwrites
`self.diameter` with `diameter + tyre_offset * 2` and sets
`self.perimeter = self.diameter * math.pi`. No validation is performed. -/
def Wheel.make (diameter : ℚ) (tyre_offset : ℚ := 20) : Wheel :=
  { diameter := diameter + tyre_offset * 2,
    perimeter := (diameter + tyre_offset * 2) * mathPi }

/-- A value that the dynamically typed source may pass as the `diameter`
argument of `Wheel`: a number, or a tuple as `Drivetrain.from_numbers`
does. -/
inductive PyVal where
  | num (q : ℚ)
  | pair (a b : ℚ)
  deriving DecidableEq

/-- Dynamic-typing behavior of `Wheel.__post_init__` on an arbitrary
diameter argument: for a numeric diameter it behaves like `Wheel.make`;
for a tuple diameter the expression `self.diameter + (tyre_offset * 2)`
raises `TypeError` (a tuple cannot be added to a number). -/
def Wheel.post_init_dyn (diameter : PyVal) (tyre_offset : ℚ) : Except String Wheel :=
  match diameter with
  | PyVal.num q => Except.ok (Wheel.make q tyre_offset)
  | PyVal.pair _ _ => Except.error ("TypeError: can only concatenate tuple and int")

/-- `Drivetrain` dataclass: a chainring, a cassette and a wheel. -/
structure Drivetrain where
  chainring : Chainring
  casette : Casette
  wheel : Wheel
  deriving DecidableEq

/-- `Drivetrain.from_numbers(chainring, casette, wheel)`: sorts and wraps
the cog lists, then evaluates `Wheel(wheel)` passing the whole
`(diameter, offset)` tuple as the diameter argument (the source does not
unpack the tuple), with the tyre offset left at its default 20. -/
def Drivetrain.from_numbers (chainring : List ℤ) (casette : List ℤ)
    (wheel : ℚ × ℚ) : Except String Drivetrain :=
  let ch := Chainring.make (pySorted chainring)
  let ca := Casette.make (pySorted casette)
  match Wheel.post_init_dyn (PyVal.pair wheel.1 wheel.2) 20 with
  | Except.error e => Except.error e
  | Except.ok w => Except.ok { chainring := ch, casette := ca, wheel := w }

/-- Observable state of a `Drivetrain` instance: the immutable fields plus
the `cached_property` storage. The source caches one DataFrame object
that `ratio` and `unfolding` both alias and mutate in place, modelled as
the single cell `frame`; `hasUnfolding` records whether the `unfolding`
cached property has been materialized. -/
structure DState where
  dt : Drivetrain
  frame : Option Frame
  hasUnfolding : Bool
  deriving DecidableEq

/-- A freshly constructed `Drivetrain` instance: nothing cached yet. -/
def DState.init (dt : Drivetrain) : DState :=
  { dt := dt, frame := none, hasUnfolding := false }

/-- `Drivetrain.ratio` cached property: on first access compute
`self.chainring * self.casette` and cache it; afterwards return the
cached (shared, possibly further mutated) object. -/
def DState.ratioProp (s : DState) : Frame × DState :=
  match s.frame with
  | some f => (f, s)
  | none =>
      let f := Chainring.mul s.dt.chainring s.dt.casette
      (f, { s with frame := some f })

/-- `Drivetrain.unfolding` cached property: on first access read
`self.ratio`, assign `ratio['unfolding'] = ratio['ratio'] *
self.wheel.perimeter / 1000` (mutating the shared cached object in
place) and cache the same object; afterwards return the cached shared
object. -/
def DState.unfoldingProp (s : DState) : Frame × DState :=
  if s.hasUnfolding then
    (s.frame.getD [], s)
  else
    let p := DState.ratioProp s
    let f := Frame.setCol p.1 ("unfolding")
      ((Frame.getColD p.1 ("ratio")).map (fun r => r * s.dt.wheel.perimeter / 1000))
    (f, { p.2 with frame := some f, hasUnfolding := true })

/-- The cadence argument of `Drivetrain.speed`: an int or a tuple. -/
inductive SpeedArg where
  | int (n : ℤ)
  | tup (l : List ℚ)
  deriving DecidableEq

/-- Cadence normalization inside `Drivetrain.speed`: an int becomes a
1-tuple; `assert len(rpm) <= 2` fails on longer input; the values are
sorted ascending; a 2-element input is expanded to
`(lower, lower + (upper - lower) / 2, upper)`. -/
def normalizeRpm (arg : SpeedArg) : Except String (List ℚ) :=
  let rpm := match arg with
    | SpeedArg.int n => [(n : ℚ)]
    | SpeedArg.tup l => l
  if rpm.length ≤ 2 then
    match pySorted rpm with
    | [lower, upper] => Except.ok [lower, lower + (upper - lower) / 2, upper]
    | s => Except.ok s
  else
    Except.error ("rpm needs to be int or tuple of two ints")

/-- The column-assignment loop of `Drivetrain.speed`: for each evaluated
cadence point and its suffix, assign
`speed['speed' + suffix] = speed['unfolding'] * rpm / 60 * 3.6` and
`speed['rpm' + suffix] = rpm` (a scalar broadcast over the rows). -/
def addSpeedCols : List (ℚ × String) → Frame → Frame
  | [], f => f
  | q :: rest, f =>
      let f1 := Frame.setCol f ("speed" ++ q.2)
        ((Frame.getColD f ("unfolding")).map (fun u => u * q.1 / 60 * (18 / 5)))
      let f2 := Frame.setCol f1 ("rpm" ++ q.2) (List.replicate (Frame.nRows f1) q.1)
      addSpeedCols rest f2

/-- `Drivetrain.speed(rpm)`: reads (and thereby materializes) the shared
`unfolding` frame, normalizes the cadence argument, zips the evaluated
points with the suffixes `_lower`, `_middle`, `_upper`, assigns the speed
and rpm columns and the broadcast `tyre_diameter` column, and returns the
shared mutated frame. The arity assertion fires after `unfolding` has
already been materialized, as in the source. -/
def DState.speed (s : DState) (arg : SpeedArg) : Except String Frame × DState :=
  let p := DState.unfoldingProp s
  match normalizeRpm arg with
  | Except.error e => (Except.error e, p.2)
  | Except.ok pts =>
      let f1 := addSpeedCols (pts.zip ["_lower", "_middle", "_upper"]) p.1
      let f2 := Frame.setCol f1 ("tyre_diameter")
        (List.replicate (Frame.nRows f1) s.dt.wheel.diameter)
      (Except.ok f2, { p.2 with frame := some f2, hasUnfolding := true })

/-- Extract the frame of a successful `speed` call (empty on failure). -/
def okFrame : Except String Frame → Frame
  | Except.ok f => f
  | Except.error _ => []

/-- Specification-side cog-set constructor, written from the spec words
for comparison with the source constructors: reject empty input with
`InvalidInput`, store the values sorted ascending. -/
def CogSetSpecMake (values : List ℤ) : Except String (List ℤ) :=
  if values.isEmpty then Except.error ("InvalidInput")
  else Except.ok (pySorted values)

/-- Specification-side wheel constructor, written from the spec words for
comparison with the source constructor: reject `diameter ≤ 0` with
`InvalidInput`, return effective diameter and perimeter. -/
def WheelSpecMake (diameter : ℚ) (tyre_offset : ℚ) : Except String (ℚ × ℚ) :=
  if diameter ≤ 0 then Except.error ("InvalidInput")
  else Except.ok (diameter + 2 * tyre_offset, (diameter + 2 * tyre_offset) * mathPi)

/-- A concrete drivetrain used by witnesses and counterexamples:
chainring [40], cassette [11], wheel of nominal diameter 700 and tyre
offset 20. -/
def dtEx : Drivetrain :=
  { chainring := Chainring.make [40],
    casette := Casette.make [11],
    wheel := Wheel.make 700 20 }

/-- The `chain_cog` column of the ratio frame, as a map over the visited
pairs (used to state the frame computed by a `speed` call explicitly). -/
def chainColOf (dt : Drivetrain) : Col :=
  (crossPairs dt.chainring.cogs dt.casette.cogs).map (fun q => (q.1 : ℚ))

/-- The `casette_cog` column of the ratio frame. -/
def casColOf (dt : Drivetrain) : Col :=
  (crossPairs dt.chainring.cogs dt.casette.cogs).map (fun q => (q.2 : ℚ))

/-- The `ratio` column of the ratio frame. -/
def ratioColOf (dt : Drivetrain) : Col :=
  (crossPairs dt.chainring.cogs dt.casette.cogs).map (fun q => (q.1 : ℚ) / (q.2 : ℚ))

/-- The `unfolding` column added by the `unfolding` property. -/
def unfoldColOf (dt : Drivetrain) : Col :=
  (ratioColOf dt).map (fun r => r * dt.wheel.perimeter / 1000)

/-- The speed column for one cadence point. -/
def speedColOf (dt : Drivetrain) (p : ℚ) : Col :=
  (unfoldColOf dt).map (fun u => u * p / 60 * (18 / 5))

/-- The broadcast rpm column for one cadence point. -/
def rpmColOf (dt : Drivetrain) (p : ℚ) : Col :=
  List.replicate (chainColOf dt).length p

/-- The frame produced by `speed` when exactly one cadence point is
evaluated. -/
def speedFrame1 (dt : Drivetrain) (x : ℚ) : Frame :=
  [("chain_cog", chainColOf dt), ("casette_cog", casColOf dt),
   ("ratio", ratioColOf dt), ("unfolding", unfoldColOf dt),
   ("speed_lower", speedColOf dt x), ("rpm_lower", rpmColOf dt x),
   ("tyre_diameter", List.replicate (chainColOf dt).length dt.wheel.diameter)]

/-- The frame produced by `speed` when three cadence points are
evaluated. -/
def speedFrame3 (dt : Drivetrain) (x y z : ℚ) : Frame :=
  [("chain_cog", chainColOf dt), ("casette_cog", casColOf dt),
   ("ratio", ratioColOf dt), ("unfolding", unfoldColOf dt),
   ("speed_lower", speedColOf dt x), ("rpm_lower", rpmColOf dt x),
   ("speed_middle", speedColOf dt y), ("rpm_middle", rpmColOf dt y),
   ("speed_upper", speedColOf dt z), ("rpm_upper", rpmColOf dt z),
   ("tyre_diameter", List.replicate (chainColOf dt).length dt.wheel.diameter)]

/-- What claim C1 asserts about the table built by `Chainring.__mul__`:
one row per cog pair, in chainring-major, cassette-minor stored order,
with `ratio = chain_cog / casette_cog` on every row. -/
def ratioTableSpec (ch : Chainring) (ca : Casette) : Prop :=
  Frame.nRows (Chainring.mul ch ca) = ch.cogs.length * ca.cogs.length
  ∧ (Frame.getColD (Chainring.mul ch ca) ("ratio")).length
      = ch.cogs.length * ca.cogs.length
  ∧ ∀ i j (hi : i < ch.cogs.length) (hj : j < ca.cogs.length),
      (Frame.getColD (Chainring.mul ch ca) ("chain_cog"))[i * ca.cogs.length + j]?
          = some ((ch.cogs[i] : ℚ))
      ∧ (Frame.getColD (Chainring.mul ch ca) ("casette_cog"))[i * ca.cogs.length + j]?
          = some ((ca.cogs[j] : ℚ))
      ∧ (Frame.getColD (Chainring.mul ch ca) ("ratio"))[i * ca.cogs.length + j]?
          = some ((ch.cogs[i] : ℚ) / (ca.cogs[j] : ℚ))

/-- What claim C2 asserts about one evaluated cadence point of a `speed`
call: the speed column is the unfolding column times `rpm / 60 * 3.6`,
the unfolding column is the ratio column times `perimeter / 1000`, the
perimeter is the effective-diameter perimeter, and the closed form
`(chain / casette) * ((d + 2 t) * pi / 1000) * rpm * 0.06` holds. -/
def speedPointSpec (ch : Chainring) (ca : Casette) (d t : ℚ) (arg : SpeedArg)
    (p : ℚ) (suf : String) : Prop :=
  let f := okFrame (DState.speed
    (DState.init { chainring := ch, casette := ca, wheel := Wheel.make d t }) arg).1
  Frame.getColD f ("speed" ++ suf)
      = (Frame.getColD f ("unfolding")).map (fun u => u * p / 60 * (18 / 5))
  ∧ Frame.getColD f ("unfolding")
      = (Frame.getColD f ("ratio")).map (fun r => r * (Wheel.make d t).perimeter / 1000)
  ∧ (Wheel.make d t).perimeter = (d + 2 * t) * mathPi
  ∧ Frame.getColD f ("speed" ++ suf)
      = (crossPairs ch.cogs ca.cogs).map
          (fun q => ((q.1 : ℚ) / (q.2 : ℚ)) * ((d + 2 * t) * mathPi / 1000) * p * (3 / 50))

/-- Unfolding one cons step of the cross-product pair list. -/
lemma crossPairs_cons (x : ℤ) (t b : List ℤ) :
    crossPairs (x :: t) b = (b.map (fun y => (x, y))) ++ crossPairs t b := rfl

/-- The nested loop of `__mul__` visits exactly `m * n` pairs. -/
lemma crossPairs_length (a b : List ℤ) :
    (crossPairs a b).length = a.length * b.length := by
  induction a with
  | nil => simp [crossPairs]
  | cons x t ih =>
      rw [crossPairs_cons]
      simp [ih]
      ring

/-- Row `i * n + j` of the visited pair list is the pair of the `i`-th
chainring cog and the `j`-th cassette cog: chainring-major,
cassette-minor order. -/
lemma crossPairs_getElem (a b : List ℤ) (i j : ℕ)
    (hi : i < a.length) (hj : j < b.length) :
    (crossPairs a b)[i * b.length + j]? = some (a[i], b[j]) := by
  induction a generalizing i with
  | nil => simp at hi
  | cons x t ih =>
      rw [crossPairs_cons]
      cases i with
      | zero =>
          rw [List.getElem?_append_left (by simpa using hj)]
          simp [List.getElem?_map, hj]
      | succ k =>
          have harith : (k + 1) * b.length + j =
              (b.map (fun y => (x, y))).length + (k * b.length + j) := by
            simp
            ring
          rw [harith, List.getElem?_append_right (Nat.le_add_right _ _)]
          simpa using ih k (by simpa using hi)

/-- A sorted 2-element cadence pair expands to lower, arithmetic middle,
upper. -/
lemma normalizeRpm_tup2 (a b : ℚ) :
    normalizeRpm (SpeedArg.tup [a, b]) =
      Except.ok [min a b, min a b + (max a b - min a b) / 2, max a b] := by
  rcases le_total a b with hab | hab
  · simp [normalizeRpm, pySorted, List.insertionSort, List.orderedInsert, hab,
      min_eq_left hab, max_eq_right hab]
  · rcases eq_or_lt_of_le hab with heq | hlt
    · subst heq
      simp [normalizeRpm, pySorted, List.insertionSort, List.orderedInsert]
    · simp [normalizeRpm, pySorted, List.insertionSort, List.orderedInsert,
        not_le.mpr hlt, min_eq_right hab, max_eq_left hab]

/-- A successful cadence normalization yields zero, one or three points. -/
lemma normalizeRpm_shape (arg : SpeedArg) (pts : List ℚ)
    (h : normalizeRpm arg = Except.ok pts) :
    pts = [] ∨ (∃ x, pts = [x]) ∨ (∃ x y z, pts = [x, y, z]) := by
  cases arg with
  | int n =>
      have e : normalizeRpm (SpeedArg.int n) = Except.ok [(n : ℚ)] := rfl
      rw [e] at h
      right; left
      exact ⟨(n : ℚ), by simpa using h.symm⟩
  | tup l =>
      rcases l with _ | ⟨a, _ | ⟨b, _ | ⟨c, tl⟩⟩⟩
      · left
        have e : normalizeRpm (SpeedArg.tup []) = Except.ok [] := rfl
        rw [e] at h
        simpa using h.symm
      · right; left
        have e : normalizeRpm (SpeedArg.tup [a]) = Except.ok [a] := rfl
        rw [e] at h
        exact ⟨a, by simpa using h.symm⟩
      · right; right
        rcases le_total a b with hab | hab
        · refine ⟨a, a + (b - a) / 2, b, ?_⟩
          have e := normalizeRpm_tup2 a b
          rw [h] at e
          simpa [min_eq_left hab, max_eq_right hab] using e
        · refine ⟨b, b + (a - b) / 2, a, ?_⟩
          have e := normalizeRpm_tup2 a b
          rw [h] at e
          simpa [min_eq_right hab, max_eq_left hab] using e
      · exfalso
        simp only [normalizeRpm] at h
        rw [if_neg (by simp only [List.length_cons]; omega)] at h
        exact Except.noConfusion h

set_option maxHeartbeats 2000000 in
/-- A `speed` call on a fresh instance whose cadence normalizes to three
points computes exactly the eleven-column frame `speedFrame3`. -/
lemma speed_of_norm3 (dt : Drivetrain) (arg : SpeedArg) (x y z : ℚ)
    (h : normalizeRpm arg = Except.ok [x, y, z]) :
    DState.speed (DState.init dt) arg =
      (Except.ok (speedFrame3 dt x y z),
       { dt := dt, frame := some (speedFrame3 dt x y z), hasUnfolding := true }) := by
  unfold DState.speed
  rw [h]
  rfl

set_option maxHeartbeats 2000000 in
/-- A `speed` call on a fresh instance whose cadence normalizes to one
point computes exactly the seven-column frame `speedFrame1`. -/
lemma speed_of_norm1 (dt : Drivetrain) (arg : SpeedArg) (x : ℚ)
    (h : normalizeRpm arg = Except.ok [x]) :
    DState.speed (DState.init dt) arg =
      (Except.ok (speedFrame1 dt x),
       { dt := dt, frame := some (speedFrame1 dt x), hasUnfolding := true }) := by
  unfold DState.speed
  rw [h]
  rfl

/-- Claim C1: for every chainring and cassette (all cogs positive), the
ratio table has exactly `m * n` rows, one per (chain cog, cassette cog)
pair with `ratio = chain_cog / casette_cog`, and the rows appear in
chainring-major, cassette-minor order following the stored cog order. -/
theorem ratio_cross_product (ch : Chainring) (ca : Casette)
    (_hch : ∀ c ∈ ch.cogs, 0 < c) (_hca : ∀ c ∈ ca.cogs, 0 < c) :
    ratioTableSpec ch ca := by
  refine ⟨?_, ?_, ?_⟩
  · show ((crossPairs ch.cogs ca.cogs).map (fun q => (q.1 : ℚ))).length = _
    simp [crossPairs_length]
  · show ((crossPairs ch.cogs ca.cogs).map (fun q => (q.1 : ℚ) / (q.2 : ℚ))).length = _
    simp [crossPairs_length]
  · intro i j hi hj
    have hchain : Frame.getColD (Chainring.mul ch ca) ("chain_cog")
        = (crossPairs ch.cogs ca.cogs).map (fun q => (q.1 : ℚ)) := rfl
    have hcas : Frame.getColD (Chainring.mul ch ca) ("casette_cog")
        = (crossPairs ch.cogs ca.cogs).map (fun q => (q.2 : ℚ)) := rfl
    have hratio : Frame.getColD (Chainring.mul ch ca) ("ratio")
        = (crossPairs ch.cogs ca.cogs).map (fun q => (q.1 : ℚ) / (q.2 : ℚ)) := rfl
    rw [hchain, hcas, hratio, List.getElem?_map, List.getElem?_map, List.getElem?_map,
      crossPairs_getElem _ _ _ _ hi hj]
    simp

/-- Witness for C1 at chainring [30, 40], cassette [11, 13]. -/
theorem ratio_cross_product_witness :
    (∀ c ∈ (Chainring.make [30, 40]).cogs, 0 < c)
    ∧ (∀ c ∈ (Casette.make [11, 13]).cogs, 0 < c)
    ∧ ratioTableSpec (Chainring.make [30, 40]) (Casette.make [11, 13]) :=
  ⟨by decide, by decide,
   ratio_cross_product (Chainring.make [30, 40]) (Casette.make [11, 13])
     (by decide) (by decide)⟩

/-- Claim C2: for every evaluated cadence point of a `speed` call, the
speed column equals `unfolding * rpm / 60 * 3.6`, where `unfolding =
ratio * wheel.perimeter / 1000` and the perimeter is the
effective-diameter perimeter; equivalently the speed equals
`(chain_cog / casette_cog) * ((diameter + 2 * tyre_offset) * pi / 1000)
* rpm * 0.06`. -/
theorem speed_formula (ch : Chainring) (ca : Casette) (d t : ℚ) (arg : SpeedArg)
    (pts : List ℚ) (p : ℚ) (suf : String)
    (hn : normalizeRpm arg = Except.ok pts)
    (hmem : (p, suf) ∈ pts.zip ["_lower", "_middle", "_upper"]) :
    speedPointSpec ch ca d t arg p suf := by
  have hperim : (Wheel.make d t).perimeter = (d + 2 * t) * mathPi := by
    simp only [Wheel.make]
    ring_nf
  rcases normalizeRpm_shape arg pts hn with h0 | ⟨x, h1⟩ | ⟨x, y, z, h3⟩
  · subst h0
    simp at hmem
  · subst h1
    simp at hmem
    obtain ⟨hp, hsuf⟩ := hmem
    subst hp
    subst hsuf
    unfold speedPointSpec
    rw [speed_of_norm1 _ _ _ hn]
    refine ⟨rfl, rfl, hperim, ?_⟩
    show speedColOf _ p = _
    simp only [speedColOf, unfoldColOf, ratioColOf, List.map_map]
    refine List.map_congr_left (fun q _ => ?_)
    simp only [Function.comp, Wheel.make]
    ring
  · subst h3
    simp [List.zip] at hmem
    unfold speedPointSpec
    rw [speed_of_norm3 _ _ _ _ _ hn]
    rcases hmem with ⟨hp, hsuf⟩ | ⟨hp, hsuf⟩ | ⟨hp, hsuf⟩ <;> subst hp <;> subst hsuf
    · refine ⟨rfl, rfl, hperim, ?_⟩
      show speedColOf _ p = _
      simp only [speedColOf, unfoldColOf, ratioColOf, List.map_map]
      refine List.map_congr_left (fun q _ => ?_)
      simp only [Function.comp, Wheel.make]
      ring
    · refine ⟨rfl, rfl, hperim, ?_⟩
      show speedColOf _ p = _
      simp only [speedColOf, unfoldColOf, ratioColOf, List.map_map]
      refine List.map_congr_left (fun q _ => ?_)
      simp only [Function.comp, Wheel.make]
      ring
    · refine ⟨rfl, rfl, hperim, ?_⟩
      show speedColOf _ p = _
      simp only [speedColOf, unfoldColOf, ratioColOf, List.map_map]
      refine List.map_congr_left (fun q _ => ?_)
      simp only [Function.comp, Wheel.make]
      ring

/-- Witness for C2 at chainring [40], cassette [11], wheel 700/20,
cadence 90. -/
theorem speed_formula_witness :
    normalizeRpm (SpeedArg.int 90) = Except.ok [90]
    ∧ ((90 : ℚ), "_lower") ∈ ([(90 : ℚ)].zip ["_lower", "_middle", "_upper"])
    ∧ speedPointSpec (Chainring.make [40]) (Casette.make [11]) 700 20
        (SpeedArg.int 90) 90 ("_lower") :=
  ⟨rfl, by decide,
   speed_formula (Chainring.make [40]) (Casette.make [11]) 700 20
     (SpeedArg.int 90) [(90 : ℚ)] 90 ("_lower") rfl (by decide)⟩

/-- Claim C3: a cadence pair is sorted ascending, the middle point is the
arithmetic mean `lower + (upper - lower) / 2`, exactly three points are
evaluated in the order lower, middle, upper, each with its own speed and
rpm column; in particular (60, 120) and (85, 95) both give middle 90. -/
theorem cadence_pair_points (dt : Drivetrain) (a b : ℚ) :
    (let f := okFrame (DState.speed (DState.init dt) (SpeedArg.tup [a, b])).1
     let R := (crossPairs dt.chainring.cogs dt.casette.cogs).length
     normalizeRpm (SpeedArg.tup [a, b])
        = Except.ok [min a b, min a b + (max a b - min a b) / 2, max a b]
     ∧ Frame.getCol f ("rpm_lower") = some (List.replicate R (min a b))
     ∧ Frame.getCol f ("rpm_middle")
        = some (List.replicate R (min a b + (max a b - min a b) / 2))
     ∧ Frame.getCol f ("rpm_upper") = some (List.replicate R (max a b))
     ∧ Frame.getCol f ("speed_lower")
        = some ((Frame.getColD f ("unfolding")).map
            (fun u => u * (min a b) / 60 * (18 / 5)))
     ∧ Frame.getCol f ("speed_middle")
        = some ((Frame.getColD f ("unfolding")).map
            (fun u => u * (min a b + (max a b - min a b) / 2) / 60 * (18 / 5)))
     ∧ Frame.getCol f ("speed_upper")
        = some ((Frame.getColD f ("unfolding")).map
            (fun u => u * (max a b) / 60 * (18 / 5))))
    ∧ normalizeRpm (SpeedArg.tup [60, 120]) = Except.ok [60, 90, 120]
    ∧ normalizeRpm (SpeedArg.tup [85, 95]) = Except.ok [85, 90, 95] := by
  have hn := normalizeRpm_tup2 a b
  have hs := speed_of_norm3 dt (SpeedArg.tup [a, b]) _ _ _ hn
  refine ⟨⟨hn, ?_, ?_, ?_, ?_, ?_, ?_⟩, ?_, ?_⟩
  · rw [hs]
    show some (rpmColOf dt (min a b)) = _
    simp [rpmColOf, chainColOf]
  · rw [hs]
    show some (rpmColOf dt (min a b + (max a b - min a b) / 2)) = _
    simp [rpmColOf, chainColOf]
  · rw [hs]
    show some (rpmColOf dt (max a b)) = _
    simp [rpmColOf, chainColOf]
  · rw [hs]
    rfl
  · rw [hs]
    rfl
  · rw [hs]
    rfl
  · rw [normalizeRpm_tup2]
    norm_num
  · rw [normalizeRpm_tup2]
    norm_num

/-- Claim C4 as amended: `ratio` twice in a row returns the same table
and the data columns `chain_cog`, `casette_cog`, `ratio` are never
altered, but `unfolding` (and `speed`) mutate the shared cached table in
place, so a `ratio` call after `unfolding` returns the widened table. -/
theorem ratio_memoization (dt : Drivetrain) :
    (∀ s : DState, (DState.ratioProp ((DState.ratioProp s).2)).1 = (DState.ratioProp s).1)
    ∧ (DState.ratioProp ((DState.unfoldingProp (DState.init dt)).2)).1
        = Frame.setCol ((DState.ratioProp (DState.init dt)).1) ("unfolding")
            ((Frame.getColD ((DState.ratioProp (DState.init dt)).1) ("ratio")).map
              (fun r => r * dt.wheel.perimeter / 1000))
    ∧ Frame.getCol ((DState.ratioProp ((DState.unfoldingProp (DState.init dt)).2)).1) ("chain_cog")
        = Frame.getCol ((DState.ratioProp (DState.init dt)).1) ("chain_cog")
    ∧ Frame.getCol ((DState.ratioProp ((DState.unfoldingProp (DState.init dt)).2)).1) ("casette_cog")
        = Frame.getCol ((DState.ratioProp (DState.init dt)).1) ("casette_cog")
    ∧ Frame.getCol ((DState.ratioProp ((DState.unfoldingProp (DState.init dt)).2)).1) ("ratio")
        = Frame.getCol ((DState.ratioProp (DState.init dt)).1) ("ratio")
    ∧ ∀ n : ℤ, Frame.getCol
        ((DState.ratioProp ((DState.speed (DState.init dt) (SpeedArg.int n)).2)).1) ("ratio")
        = Frame.getCol ((DState.ratioProp (DState.init dt)).1) ("ratio") := by
  refine ⟨?_, rfl, rfl, rfl, rfl, fun n => rfl⟩
  intro s
  rcases s with ⟨d, fr, hu⟩
  cases fr <;> rfl

/-- Counterexample for C4 as stated: after an `unfolding` call, a `ratio`
call no longer returns the table the first `ratio` call returned (the
shared cached table has gained an `unfolding` column). -/
theorem ratio_memoization_cex :
    (DState.ratioProp ((DState.unfoldingProp (DState.init dtEx)).2)).1
      ≠ (DState.ratioProp (DState.init dtEx)).1 := by
  intro h
  have h2 := congrArg (fun f => Frame.getCol f ("unfolding")) h
  exact Option.noConfusion h2

/-- Claim C5 as amended: cog-set construction never fails; the empty list
is accepted with `cogs = []` and `n_by = 0`, and every list of integers
is accepted as given. -/
theorem cogset_construction_total (l : List ℤ) :
    (Casette.make l).cogs = l ∧ (Casette.make l).n_by = l.length
    ∧ (Chainring.make l).cogs = l ∧ (Chainring.make l).n_by = l.length :=
  ⟨rfl, rfl, rfl, rfl⟩

/-- Counterexample for C5 as stated: constructing a cog set from the
empty list succeeds (the source performs no validation), while the
spec-side constructor rejects it with `InvalidInput`. -/
theorem cogset_empty_accepted :
    (Casette.make []).cogs = [] ∧ (Casette.make []).n_by = 0
    ∧ (Chainring.make []).cogs = []
    ∧ CogSetSpecMake [] = Except.error ("InvalidInput") :=
  ⟨rfl, rfl, rfl, rfl⟩

/-- Claim C6 as amended: wheel construction never fails (no diameter
validation exists); for every diameter and offset the effective diameter
is `diameter + 2 * offset` and the perimeter is the effective diameter
times pi. -/
theorem wheel_construction_total (d t : ℚ) :
    (Wheel.make d t).diameter = d + 2 * t
    ∧ (Wheel.make d t).perimeter = (d + 2 * t) * mathPi := by
  constructor
  · show d + t * 2 = d + 2 * t
    ring
  · show (d + t * 2) * mathPi = (d + 2 * t) * mathPi
    ring

/-- Counterexample for C6 as stated: a wheel with nominal diameter 0 is
accepted by the source constructor (effective diameter 40 with the
default offset 20), while the spec-side constructor rejects diameter 0
with `InvalidInput`. -/
theorem wheel_zero_diameter_accepted :
    (Wheel.make 0 20).diameter = 40 ∧ (Wheel.make 0 20).perimeter = 40 * mathPi
    ∧ WheelSpecMake 0 20 = Except.error ("InvalidInput") := by
  refine ⟨?_, ?_, ?_⟩
  · show (0 : ℚ) + 20 * 2 = 40
    norm_num
  · show ((0 : ℚ) + 20 * 2) * mathPi = 40 * mathPi
    norm_num
  · simp [WheelSpecMake]

/-- Claim C7 as amended: a cadence collection of more than two values is
rejected (assertion error) with no frame returned, while a single int or
any collection of at most two values is accepted. -/
theorem speed_arity (s : DState) (l : List ℚ) :
    (2 < l.length →
      (DState.speed s (SpeedArg.tup l)).1
        = Except.error ("rpm needs to be int or tuple of two ints"))
    ∧ (l.length ≤ 2 → (DState.speed s (SpeedArg.tup l)).1.isOk = true) := by
  constructor
  · intro h
    have hn : normalizeRpm (SpeedArg.tup l)
        = Except.error ("rpm needs to be int or tuple of two ints") := by
      simp only [normalizeRpm]
      rw [if_neg (by omega)]
    unfold DState.speed
    rw [hn]
  · intro h
    obtain ⟨pts, hp⟩ : ∃ pts, normalizeRpm (SpeedArg.tup l) = Except.ok pts := by
      simp only [normalizeRpm]
      rw [if_pos (by omega)]
      rcases hs : pySorted l with _ | ⟨x, _ | ⟨y, _ | ⟨z, tl⟩⟩⟩
      · exact ⟨[], rfl⟩
      · exact ⟨[x], rfl⟩
      · exact ⟨[x, x + (y - x) / 2, y], rfl⟩
      · exact ⟨x :: y :: z :: tl, rfl⟩
    unfold DState.speed
    rw [hp]
    rfl

/-- Witness for C7 (amended) at the three-element cadence [60, 90, 120]. -/
theorem speed_arity_witness :
    2 < ([(60 : ℚ), 90, 120] : List ℚ).length
    ∧ (DState.speed (DState.init dtEx) (SpeedArg.tup [60, 90, 120])).1
        = Except.error ("rpm needs to be int or tuple of two ints") :=
  ⟨by decide, (speed_arity (DState.init dtEx) [60, 90, 120]).1 (by decide)⟩

/-- Counterexample for C7 as stated: a 1-tuple cadence is neither a
single integer nor a 2-tuple, yet `speed` accepts it and returns a
frame. -/
theorem speed_one_tuple_accepted :
    (DState.speed (DState.init dtEx) (SpeedArg.tup [90])).1.isOk = true := rfl

/-- Claim C8 as amended: the constructors store the cog values exactly as
given (length preserved, duplicates untouched, no mutation API); the
stored sequence is sorted ascending when the caller passes
`sorted(values)`, as `from_numbers` and the UI do, and sorting preserves
length and multiset. -/
theorem cogset_stores_as_given (l : List ℤ) :
    (Casette.make l).cogs = l
    ∧ (Chainring.make l).cogs = l
    ∧ (Casette.make (pySorted l)).cogs.length = l.length
    ∧ List.Sorted (fun a b => a ≤ b) ((Casette.make (pySorted l)).cogs)
    ∧ List.Perm ((Casette.make (pySorted l)).cogs) l := by
  refine ⟨rfl, rfl, ?_, ?_, ?_⟩
  · exact (List.perm_insertionSort _ l).length_eq
  · exact List.sorted_insertionSort _ l
  · exact List.perm_insertionSort _ l

/-- Counterexample for C8 as stated: constructing a cog set from the
unsorted list [3, 1] stores [3, 1] unchanged, which differs from the
ascending sort [1, 3]. -/
theorem cogset_unsorted_cex :
    (Casette.make [3, 1]).cogs = [3, 1]
    ∧ pySorted [(3 : ℤ), 1] = [1, 3]
    ∧ ([3, 1] : List ℤ) ≠ [1, 3] :=
  ⟨rfl, by decide, by decide⟩

/-- Claim C9 as amended: construction does not constrain cog values, so
freedom from division by zero holds only under the assumption that every
cassette cog is nonzero; under that assumption every divisor in the
table is nonzero and `ratio * casette_cog = chain_cog`. -/
theorem ratio_divisors_nonzero (ch : Chainring) (ca : Casette)
    (h : ∀ c ∈ ca.cogs, c ≠ 0) :
    Frame.getColD (Chainring.mul ch ca) ("ratio")
        = (crossPairs ch.cogs ca.cogs).map (fun q => (q.1 : ℚ) / (q.2 : ℚ))
    ∧ ∀ q ∈ crossPairs ch.cogs ca.cogs,
        (q.2 : ℚ) ≠ 0 ∧ ((q.1 : ℚ) / (q.2 : ℚ)) * (q.2 : ℚ) = (q.1 : ℚ) := by
  refine ⟨rfl, ?_⟩
  intro q hq
  have h2 : q.2 ∈ ca.cogs := by
    simp [crossPairs] at hq
    obtain ⟨x, hx, y, hy, hxy⟩ := hq
    rw [← hxy]
    exact hy
  have hz : (q.2 : ℚ) ≠ 0 := Int.cast_ne_zero.mpr (h _ h2)
  exact ⟨hz, div_mul_cancel₀ _ hz⟩

/-- Witness for C9 (amended) at chainring [40], cassette [11, 13]. -/
theorem ratio_divisors_nonzero_witness :
    (∀ c ∈ (Casette.make [11, 13]).cogs, c ≠ 0)
    ∧ (Frame.getColD (Chainring.mul (Chainring.make [40]) (Casette.make [11, 13])) ("ratio")
        = (crossPairs (Chainring.make [40]).cogs (Casette.make [11, 13]).cogs).map
            (fun q => (q.1 : ℚ) / (q.2 : ℚ))
      ∧ ∀ q ∈ crossPairs (Chainring.make [40]).cogs (Casette.make [11, 13]).cogs,
          (q.2 : ℚ) ≠ 0 ∧ ((q.1 : ℚ) / (q.2 : ℚ)) * (q.2 : ℚ) = (q.1 : ℚ)) :=
  ⟨by decide,
   ratio_divisors_nonzero (Chainring.make [40]) (Casette.make [11, 13]) (by decide)⟩

/-- Counterexample for C9 as stated: a cassette containing the cog 0 is
accepted by construction (no positivity constraint exists), and the
resulting table contains a row whose divisor `casette_cog` is 0, so the
ratio computation does divide by zero there (a `ZeroDivisionError` in
the source; the total division of ℚ makes the embedded table well
defined regardless). -/
theorem casette_zero_cog_accepted :
    (Casette.make [0]).cogs = [0]
    ∧ Frame.getCol (Chainring.mul (Chainring.make [40]) (Casette.make [0])) ("casette_cog")
        = some [0] :=
  ⟨rfl, rfl⟩

/-- Claim C10 (code bug): `from_numbers` passes the whole
`(diameter, offset)` tuple as the diameter argument of `Wheel`, so
`Wheel.__post_init__` evaluates tuple + int and raises `TypeError`; no
drivetrain is ever returned, contradicting the function's own signature
`Tuple[float, float]` and docstring. -/
theorem from_numbers_type_error :
    Drivetrain.from_numbers [40] [11, 13] (700, 20)
      = Except.error ("TypeError: can only concatenate tuple and int") := rfl

end Gearing
